import Mathlib

/-!
Verification of the respoke/brightstream client session layer
(`Presentable` / `Endpoint` / `User` / `LocalMedia`), shallowly embedded
from the JavaScript source.  States are explicit records, JavaScript
side effects (fired events, log warnings, `reject()` calls, transport
sends) are returned as explicit effect lists, and JavaScript truthiness
of optional string parameters is modelled by `truthyStr`.
-/

set_option autoImplicit false

namespace Respoke

/-- JavaScript truthiness of an optional string parameter: `undefined`
and the empty string are falsy, every other string is truthy. -/
def truthyStr : Option String → Bool
  | none => false
  | some s => !(s == "")

/-- JavaScript truthiness of an optional boolean (used for the results of
the `isVideoMuted`/`isAudioMuted` queries, which can return `undefined`):
only `some true` is truthy. -/
def truthyOptBool : Option Bool → Bool
  | some true => true
  | _ => false

/-- `params.x || dflt` for an optional string parameter `x`. -/
def orDefault (v : Option String) (d : String) : String :=
  match v with
  | none => d
  | some s => if s == "" then d else s

/-! ## Presence resolution (`Endpoint.resolvePresence`, `Presentable.setPresence`) -/

/-- The fixed priority order used by `resolvePresence`
(`var options = ['chat', 'available', 'away', 'dnd', 'xa', 'unavailable'];`). -/
def presenceOptions : List String :=
  ["chat", "available", "away", "dnd", "xa", "unavailable"]

/-- The priority index of a presence value.  The source computes
`options.indexOf(presence)` and replaces the `-1` returned for an unknown
value by `1000`, moving unknown values after every listed value. -/
def presenceIndex (p : String) : Nat :=
  match presenceOptions.indexOf? p with
  | some i => i
  | none => 1000

/-- The ordering the source's comparator `sorter` induces on session
entries (pairs of connectionId and presence value): compare the priority
indexes of the presence values. -/
def presenceLe (a b : String × String) : Prop :=
  presenceIndex a.2 ≤ presenceIndex b.2

instance : DecidableRel presenceLe :=
  fun a b => Nat.decLe (presenceIndex a.2) (presenceIndex b.2)

instance : IsTotal (String × String) presenceLe :=
  ⟨fun a b => Nat.le_total (presenceIndex a.2) (presenceIndex b.2)⟩

instance : IsTrans (String × String) presenceLe :=
  ⟨fun _ _ _ => Nat.le_trans⟩

namespace Endpoint

/-- `Endpoint.resolvePresence`: sort the sessions by the priority index of
their presence value and take the presence of the first one; an empty
session map resolves to `"unavailable"`.  Sessions are the entries of the
`params.sessions` map in key order, as `(connectionId, presence)` pairs. -/
def resolvePresence (sessions : List (String × String)) : String :=
  match List.insertionSort presenceLe sessions with
  | [] => "unavailable"
  | s :: _ => s.2

end Endpoint

/-- The per-identity state of a `Presentable`: the `sessions` map (entries
in key-insertion order, one per connectionId, later writes overwrite) and
the resolved `presence`. -/
structure PresentableState where
  sessions : List (String × String)
  presence : String
deriving DecidableEq

/-- `sessions[params.connectionId] = {connectionId, presence}`: overwrite
the entry for the connectionId if present (keeping its position), append
otherwise. -/
def setSession (sessions : List (String × String)) (cid pres : String) :
    List (String × String) :=
  if sessions.any (fun s => s.1 == cid) then
    sessions.map (fun s => if s.1 == cid then (cid, pres) else s)
  else
    sessions ++ [(cid, pres)]

namespace Presentable

/-- `Presentable.setPresence`: default the presence to `"available"` and
the connectionId to `"local"`, store the session entry, recompute the
resolved presence (through `resolvePresence` when the object has a
resolver, as `Endpoint` does; otherwise the passed presence), and fire
exactly one `presence` event.  The returned list holds the presence
values fired. -/
def setPresence (hasResolver : Bool) (st : PresentableState)
    (pp pc : Option String) : PresentableState × List String :=
  let pres := orDefault pp "available"
  let cid := orDefault pc "local"
  let sessions := setSession st.sessions cid pres
  let newP := if hasResolver then Endpoint.resolvePresence sessions else pres
  ({ sessions := sessions, presence := newP }, [newP])

end Presentable

/-! ## C3: the resolved presence has minimal priority index -/

/-- Claim C3: for every map of sessions, `resolvePresence` returns a
presence value whose index in the fixed priority order `[chat, available,
away, dnd, xa, unavailable]` (values not in the list ranking after all
listed values) is less than or equal to the priority index of every
session's presence value, and the empty map resolves to `unavailable`. -/
theorem resolvePresence_priority_minimal (sessions : List (String × String))
    (s : String × String) (hs : s ∈ sessions) :
    presenceIndex (Endpoint.resolvePresence sessions) ≤ presenceIndex s.2 ∧
    Endpoint.resolvePresence [] = "unavailable" := by
  refine ⟨?_, rfl⟩
  have hperm := List.perm_insertionSort presenceLe sessions
  have hsorted := List.sorted_insertionSort presenceLe sessions
  have hmem : s ∈ List.insertionSort presenceLe sessions := hperm.mem_iff.mpr hs
  unfold Endpoint.resolvePresence
  split
  next heq =>
    rw [heq] at hmem
    cases hmem
  next hd tl heq =>
    rw [heq] at hmem hsorted
    rcases List.mem_cons.mp hmem with h1 | h2
    · rw [h1]
    · exact List.rel_of_sorted_cons hsorted s h2

/-- Witness for C3 at a concrete session map. -/
theorem resolvePresence_priority_minimal_witness :
    presenceIndex (Endpoint.resolvePresence [("a", "xa"), ("b", "chat")]) ≤
      presenceIndex "xa" ∧
    Endpoint.resolvePresence [] = "unavailable" :=
  resolvePresence_priority_minimal [("a", "xa"), ("b", "chat")] ("a", "xa")
    (List.mem_cons_self _ _)

/-! ## C4: setPresence fires exactly one presence event, unconditionally -/

/-- Claim C4: every invocation of `Presentable.setPresence` fires exactly
one `presence` event, unconditionally — even when applied a second time
with the same parameters (so setting the same presence twice fires
exactly two events in total, one per call, with no deduplication). -/
theorem setPresence_always_fires (hasResolver : Bool) (st : PresentableState)
    (pp pc : Option String) :
    (Presentable.setPresence hasResolver st pp pc).2.length = 1 ∧
    (Presentable.setPresence hasResolver
        (Presentable.setPresence hasResolver st pp pc).1 pp pc).2.length = 1 := by
  exact ⟨rfl, rfl⟩

/-! ## The local identity's active-call collection (`User`) -/

/-- The `className` discriminator of a tracked session
(`'brightstream.Call'` or `'brightstream.DirectConnection'`). -/
inductive CallClass where
  | call
  | directConnection
deriving DecidableEq

/-- A call / direct-connection reference as `User` observes it: an object
identity tag `ref` (distinct objects carry distinct tags, so equality of
`CallRef` values models JavaScript `===`), the `id`, the `className` and
the `initiator` flag. -/
structure CallRef where
  ref : Nat
  id : String
  className : CallClass
  initiator : Bool
deriving DecidableEq

/-- The `User` state: its `calls` array of active call / direct-connection
references, in insertion order. -/
structure UserState where
  calls : List CallRef
deriving DecidableEq

/-- The observable side effects of the `User` call-tracking methods. -/
inductive UserEv where
  | warn (msg : String)
  | callFired (endpointId : String) (c : CallRef)
  | rejected (c : CallRef)
deriving DecidableEq

/-- `log.warn("Got an incoming call with no handlers to accept it!")` -/
def warnNoHandlersMsg : String := "Got an incoming call with no handlers to accept it!"

/-- `log.warn("No call removed.")` -/
def noCallRemovedMsg : String := "No call removed."

/-- The message of the `Error` thrown by `removeCall` when neither an id
nor a call is given. -/
def removeCallThrowMsg : String :=
  "Must specify endpointId of Call to remove or the call itself."

namespace User

/-- `User.addCall`: skip entirely when the reference is already present
(`calls.indexOf(params.call) === -1`); otherwise push it, and — only for
`brightstream.Call` references — either auto-reject it (warn, call
`reject()` and return) when it is inbound (`!initiator`) and the user has
no `call` listeners, or fire the `call` event `{endpoint, call}`. -/
def addCall (hasCallListeners : Bool) (st : UserState) (endpointId : String)
    (c : CallRef) : UserState × List UserEv :=
  if c ∈ st.calls then (st, [])
  else
    let calls := st.calls ++ [c]
    if c.className = CallClass.call then
      if !c.initiator && !hasCallListeners then
        (⟨calls⟩, [UserEv.warn warnNoHandlersMsg, UserEv.rejected c])
      else
        (⟨calls⟩, [UserEv.callFired endpointId c])
    else
      (⟨calls⟩, [])

/-- The match condition of the `removeCall` loop:
`calls[i].id === params.id || (params.call && calls[i] === params.call)`.
Strict equality of a string id against an `undefined` `params.id` is
false, and an object-valued `params.call` is always truthy. -/
def matchesRemove (pid : Option String) (pcall : Option CallRef)
    (c : CallRef) : Bool :=
  (pid == some c.id) || (pcall.isSome && pcall == some c)

/-- The body of `removeCall`'s backward loop.  `removeScanGo cur (i+1) m`
examines index `i` of the live array `cur`: on a match it performs
`calls.splice(i)` — truncating the array at `i` — sets the match flag and
continues at `i-1`; otherwise it continues at `i-1` unchanged. -/
def removeScanGo (pid : Option String) (pcall : Option CallRef) :
    List CallRef → Nat → Bool → List CallRef × Bool
  | cur, 0, m => (cur, m)
  | cur, i + 1, m =>
    match cur[i]? with
    | some c =>
      if matchesRemove pid pcall c then
        removeScanGo pid pcall (cur.take i) i true
      else
        removeScanGo pid pcall cur i m
    | none => removeScanGo pid pcall cur i m

/-- `removeCall`'s loop, started at `calls.length - 1` with no match. -/
def removeScan (pid : Option String) (pcall : Option CallRef)
    (calls : List CallRef) : List CallRef × Bool :=
  removeScanGo pid pcall calls calls.length false

/-- The result of `User.removeCall`: the state and warnings if it ran, or
the message of the `Error` it threw (in which case the state is the
unchanged input state). -/
structure RemoveResult where
  state : UserState
  events : List UserEv
  thrown : Option String
deriving DecidableEq

/-- `User.removeCall`: throw when neither `params.id` nor `params.call`
is truthy; otherwise run the backward splice loop and warn if nothing
matched. -/
def removeCall (st : UserState) (pid : Option String)
    (pcall : Option CallRef) : RemoveResult :=
  if !truthyStr pid && !pcall.isSome then
    { state := st, events := [], thrown := some removeCallThrowMsg }
  else
    let r := removeScan pid pcall st.calls
    { state := ⟨r.1⟩
      events := if r.2 then [] else [UserEv.warn noCallRemovedMsg]
      thrown := none }

end User

/-- Keep everything strictly before the first entry satisfying `p`: the
first matching entry and every entry after it are dropped, and a list
with no matching entry is returned unchanged.  This is the observable
effect of `removeCall`'s backward truncating-splice loop. -/
def truncAt (p : CallRef → Bool) : List CallRef → List CallRef
  | [] => []
  | c :: rest => if p c then [] else c :: truncAt p rest

theorem truncAt_of_not_any (p : CallRef → Bool) (l : List CallRef)
    (h : l.any p = false) : truncAt p l = l := by
  induction l with
  | nil => rfl
  | cons c rest ih =>
    simp only [List.any_cons, Bool.or_eq_false_iff] at h
    simp [truncAt, h.1, ih h.2]

theorem truncAt_append_single (p : CallRef → Bool) (l : List CallRef)
    (c : CallRef) :
    truncAt p (l ++ [c]) =
      if l.any p then truncAt p l else (if p c then l else l ++ [c]) := by
  induction l with
  | nil => simp [truncAt]
  | cons x xs ih =>
    by_cases hx : p x
    · simp [truncAt, hx]
    · simp only [List.cons_append, truncAt, hx, List.any_cons, List.append_eq]
      rw [ih]
      by_cases ha : xs.any p
      · simp [ha, hx]
      · by_cases hc : p c <;> simp [ha, hx, hc]

theorem removeScanGo_spec (pid : Option String) (pcall : Option CallRef) :
    ∀ (i : Nat) (cur : List CallRef) (m : Bool), i ≤ cur.length →
      User.removeScanGo pid pcall cur i m =
        (if (cur.take i).any (User.matchesRemove pid pcall) then
            truncAt (User.matchesRemove pid pcall) (cur.take i)
          else cur,
         m || (cur.take i).any (User.matchesRemove pid pcall)) := by
  intro i
  induction i with
  | zero => intro cur m _; simp [User.removeScanGo]
  | succ i ih =>
    intro cur m h
    have hi : i < cur.length := Nat.lt_of_succ_le h
    have hget : cur[i]? = some cur[i] := List.getElem?_eq_getElem hi
    have htake : cur.take (i + 1) = cur.take i ++ [cur[i]] := by
      rw [List.take_succ, hget]
      rfl
    rw [User.removeScanGo, hget]
    by_cases hp : User.matchesRemove pid pcall cur[i]
    · simp only [hp, if_true]
      have hlen : i ≤ (cur.take i).length := by
        rw [List.length_take]
        exact Nat.le_min.mpr ⟨Nat.le_refl i, Nat.le_of_lt hi⟩
      rw [ih (cur.take i) true hlen]
      rw [htake, List.any_append, List.take_take, Nat.min_self,
        truncAt_append_single]
      simp only [List.any_cons, List.any_nil, hp]
      by_cases ha : (cur.take i).any (User.matchesRemove pid pcall) <;>
        simp [ha, hp]
    · simp only [hp, if_false]
      rw [ih cur m (Nat.le_of_lt hi)]
      rw [htake, List.any_append, truncAt_append_single]
      simp only [List.any_cons, List.any_nil, hp]
      by_cases ha : (cur.take i).any (User.matchesRemove pid pcall) <;>
        simp [ha, hp]

theorem removeScan_spec (pid : Option String) (pcall : Option CallRef)
    (calls : List CallRef) :
    User.removeScan pid pcall calls =
      (truncAt (User.matchesRemove pid pcall) calls,
       calls.any (User.matchesRemove pid pcall)) := by
  unfold User.removeScan
  rw [removeScanGo_spec pid pcall calls.length calls false (Nat.le_refl _)]
  rw [List.take_length]
  by_cases ha : calls.any (User.matchesRemove pid pcall)
  · simp [ha]
  · simp only [Bool.not_eq_true] at ha
    simp [ha, truncAt_of_not_any _ _ ha]

/-! ## C1: inbound call added with zero `call` listeners -/

/-- A concrete inbound call reference used to refute claim C1 as stated. -/
def cexCall : CallRef := { ref := 0, id := "c0", className := CallClass.call, initiator := false }

/-- Counterexample to claim C1 as stated: adding an inbound call
(`initiator === false`, `className === 'brightstream.Call'`) to a user
with zero `call` listeners and an empty active set leaves the call
PRESENT in the active-call set — `addCall` pushes the reference before
the listener check and the auto-reject branch returns without undoing
the push — contradicting the claimed absence. -/
theorem addCall_inbound_registered_cex :
    cexCall ∈ (User.addCall false ⟨[]⟩ "ep" cexCall).1.calls := by decide

/-- Claim C1 as amended: for every inbound call (`initiator === false`,
class `brightstream.Call`) not already present, added while the identity
has zero registered `call` listeners, `addCall` warns, auto-rejects the
call and publishes no `call` notification — but the call remains
registered in the active-call set (it is appended before the listener
check; any later removal happens outside `addCall`). -/
theorem addCall_inbound_no_listeners (st : UserState) (ep : String)
    (c : CallRef) (hmem : c ∉ st.calls) (hcls : c.className = CallClass.call)
    (hinit : c.initiator = false) :
    User.addCall false st ep c =
      (⟨st.calls ++ [c]⟩, [UserEv.warn warnNoHandlersMsg, UserEv.rejected c]) := by
  simp [User.addCall, hmem, hcls, hinit]

/-- Witness for the amended C1 at a concrete inbound call. -/
theorem addCall_inbound_no_listeners_witness :
    User.addCall false ⟨[]⟩ "ep" cexCall =
      (⟨[cexCall]⟩, [UserEv.warn warnNoHandlersMsg, UserEv.rejected cexCall]) := by
  have h := addCall_inbound_no_listeners ⟨[]⟩ "ep" cexCall
    (by decide) (by decide) (by decide)
  exact h

/-! ## C2: removeCall is a truncating removal -/

/-- Claim C2: for every active-call collection and every
`removeCall({id})` or `removeCall({call})` invocation (at least one of
the two parameters truthy), the backward splice loop removes the matched
entry together with every entry after it in the collection's current
order (a truncating removal at the first matching position, not a
single-element delete); if no entry matches, the collection is unchanged
and a `"No call removed."` warning is logged. -/
theorem removeCall_truncating (st : UserState) (pid : Option String)
    (pcall : Option CallRef)
    (hp : truthyStr pid = true ∨ pcall.isSome = true) :
    User.removeCall st pid pcall =
      { state := ⟨truncAt (User.matchesRemove pid pcall) st.calls⟩
        events := if st.calls.any (User.matchesRemove pid pcall) then []
                  else [UserEv.warn noCallRemovedMsg]
        thrown := none } ∧
    (st.calls.any (User.matchesRemove pid pcall) = false →
      truncAt (User.matchesRemove pid pcall) st.calls = st.calls) := by
  constructor
  · unfold User.removeCall
    have hguard : (!truthyStr pid && !pcall.isSome) = false := by
      rcases hp with h | h <;> simp [h]
    rw [hguard]
    simp only [Bool.false_eq_true, if_false, removeScan_spec]
  · exact truncAt_of_not_any _ _

/-- Witness for C2: the spec's own scenario — `removeCall({id: "X"})` on
an active set `[A(id=X), B, C]` with the match at index 0 empties the
whole collection (truncating removal), with no warning. -/
theorem removeCall_truncating_witness :
    User.removeCall
        ⟨[{ ref := 1, id := "X", className := CallClass.call, initiator := true },
          { ref := 2, id := "Y", className := CallClass.call, initiator := true },
          { ref := 3, id := "Z", className := CallClass.call, initiator := true }]⟩
        (some "X") none =
      { state := ⟨[]⟩, events := [], thrown := none } := by
  have h := removeCall_truncating
    ⟨[{ ref := 1, id := "X", className := CallClass.call, initiator := true },
      { ref := 2, id := "Y", className := CallClass.call, initiator := true },
      { ref := 3, id := "Z", className := CallClass.call, initiator := true }]⟩
    (some "X") none (Or.inl rfl)
  rw [h.1]
  decide

/-! ## C9: addCall never duplicates a call reference -/

/-- One `addCall` invocation, viewed as a state transformer
(listener flag, endpoint id and call reference bundled as the input). -/
def addCallStep (st : UserState) (x : Bool × String × CallRef) : UserState :=
  (User.addCall x.1 st x.2.1 x.2.2).1

theorem addCallStep_nodup (st : UserState) (x : Bool × String × CallRef)
    (h : st.calls.Nodup) : (addCallStep st x).calls.Nodup := by
  unfold addCallStep User.addCall
  by_cases hc : x.2.2 ∈ st.calls
  · simp [hc, h]
  · have happ : (st.calls ++ [x.2.2]).Nodup := by
      simp [List.nodup_append, h, hc]
    by_cases hcls : x.2.2.className = CallClass.call
    · by_cases hb : (!x.2.2.initiator && !x.1) = true
      · simp [hc, hcls, hb, happ]
      · simp only [Bool.not_eq_true] at hb
        simp [hc, hcls, hb, happ]
    · simp [hc, hcls, happ]

/-- Claim C9: after every sequence of `addCall` invocations starting from
a duplicate-free state, the active-call collection never contains two
entries that are the same (`===`) call reference — `addCall` skips any
reference already present. -/
theorem addCall_seq_nodup (init : UserState) (h : init.calls.Nodup)
    (steps : List (Bool × String × CallRef)) :
    (steps.foldl addCallStep init).calls.Nodup := by
  induction steps generalizing init with
  | nil => exact h
  | cons x xs ih => exact ih (addCallStep init x) (addCallStep_nodup init x h)

/-- Witness for C9: a concrete sequence that adds the same reference
twice (and one other call) still yields a duplicate-free collection. -/
theorem addCall_seq_nodup_witness :
    ([(true, "e1", cexCall), (true, "e1", cexCall),
      (true, "e2", { ref := 1, id := "c1", className := CallClass.call, initiator := true })].foldl
        addCallStep ⟨[]⟩).calls.Nodup :=
  addCall_seq_nodup ⟨[]⟩ List.nodup_nil _

/-! ## C10: removeCall with neither id nor call throws -/

/-- Claim C10: invoking `User.removeCall` with neither an `id` nor a
`call` parameter throws an `Error` synchronously with message
`"Must specify endpointId of Call to remove or the call itself."`, logs
nothing, and leaves the active-call collection unchanged. -/
theorem removeCall_missing_params (st : UserState) :
    User.removeCall st none none =
      { state := st, events := [], thrown := some removeCallThrowMsg } := rfl

/-! ## Endpoint: sendSignal (C5) and getDirectConnection (C7) -/

/-- The message of the validation error `sendSignal` rejects with. -/
def sendSignalErrMsg : String :=
  "Can\x27t send a signal without a \x27signal\x27 paramter."

/-- The effects of `Endpoint.sendSignal`, in the order they occur. -/
inductive SigEffect where
  | rejectDeferred (msg : String)
  | transportSendSignal (signal : Option String)
deriving DecidableEq

namespace Endpoint

/-- `Endpoint.sendSignal`: create a deferred, reject it when
`params.signal` is falsy — and then, with no early return, invoke
`signalingChannel.sendSignal` with the given (possibly `undefined`)
signal regardless. -/
def sendSignal (signal : Option String) : List SigEffect :=
  (if !truthyStr signal then [SigEffect.rejectDeferred sendSignalErrMsg]
   else [])
    ++ [SigEffect.transportSendSignal signal]

end Endpoint

/-- Claim C5, evaluated at the failing input: calling
`Endpoint.sendSignal` without a `signal` parameter does reject the
returned promise synchronously with the validation error, but — contrary
to the claim that no signal is handed to the Signaling Transport — it
still invokes `signalingChannel.sendSignal`, handing the `undefined`
signal to the transport (the code has no early return after the
rejection). -/
theorem sendSignal_missing_signal_divergence :
    Endpoint.sendSignal none =
      [SigEffect.rejectDeferred sendSignalErrMsg,
       SigEffect.transportSendSignal none] := rfl

/-- A direct-connection object, identified by its object identity tag. -/
structure DirectConnection where
  ref : Nat
deriving DecidableEq

/-- The `Endpoint` state observed by `getDirectConnection`: the endpoint
`id` and the cached `directConnection` back-reference. -/
structure EndpointState where
  id : Option String
  directConnection : Option DirectConnection
deriving DecidableEq

/-- The observable effects of `Endpoint.getDirectConnection`. -/
inductive EpEv where
  | errorLog (msg : String)
  | dcAccepted (dc : DirectConnection)
  | dcFired (dc : DirectConnection)
  | warnLog (msg : String)
  | dcRejected (dc : DirectConnection)
deriving DecidableEq

/-- `log.error("Can't start a direct connection without endpoint ID!")` -/
def dcNoIdMsg : String :=
  "Can\x27t start a direct connection without endpoint ID!"

/-- `log.warn` for an unhandled inbound direct connection. -/
def dcNoHandlersMsg : String :=
  "Got an incoming direct connection with no handlers to accept it!"

namespace Endpoint

/-- `Endpoint.getDirectConnection`: return the cached reference
unchanged when one exists; otherwise default `initiator` to `true`, fail
fast without an endpoint id, construct a fresh connection (modelled by
the `freshRef` tag), cache it, and either `accept` it (initiator) or
fire the user's `direct-connection` event — auto-rejecting afterwards
when the user has no `direct-connection` listeners. -/
def getDirectConnection (st : EndpointState) (initiator : Option Bool)
    (hasDCListeners : Bool) (freshRef : Nat) :
    EndpointState × Option DirectConnection × List EpEv :=
  match st.directConnection with
  | some dc => (st, some dc, [])
  | none =>
    let init := initiator.getD true
    if !truthyStr st.id then
      (st, none, [EpEv.errorLog dcNoIdMsg])
    else
      let dc : DirectConnection := { ref := freshRef }
      let st1 : EndpointState := { st with directConnection := some dc }
      if init then
        (st1, some dc, [EpEv.dcAccepted dc])
      else if !hasDCListeners then
        (st1, some dc, [EpEv.dcFired dc, EpEv.warnLog dcNoHandlersMsg,
                        EpEv.dcRejected dc])
      else
        (st1, some dc, [EpEv.dcFired dc])

/-- The `close` listener `getDirectConnection` registers on the
connection: it clears the cached back-reference. -/
def onDirectConnectionClose (st : EndpointState) : EndpointState :=
  { st with directConnection := none }

end Endpoint

/-- Claim C7: for every endpoint whose `directConnection` reference is
cached, every call to `getDirectConnection` returns that identical
cached reference with the state unchanged and no effects (no new
connection is constructed), and two calls without an intervening close
return the same reference both times. -/
theorem getDirectConnection_idempotent (st : EndpointState)
    (dc : DirectConnection) (h : st.directConnection = some dc)
    (i1 i2 : Option Bool) (l1 l2 : Bool) (f1 f2 : Nat) :
    Endpoint.getDirectConnection st i1 l1 f1 = (st, some dc, []) ∧
    (Endpoint.getDirectConnection
        (Endpoint.getDirectConnection st i1 l1 f1).1 i2 l2 f2).2.1 = some dc := by
  constructor
  · simp [Endpoint.getDirectConnection, h]
  · simp [Endpoint.getDirectConnection, h]

/-- Witness for C7 at a concrete endpoint with a cached connection. -/
theorem getDirectConnection_idempotent_witness :
    Endpoint.getDirectConnection
        { id := some "ep1", directConnection := some { ref := 7 } }
        none true 99 =
      ({ id := some "ep1", directConnection := some { ref := 7 } },
       some { ref := 7 }, []) ∧
    (Endpoint.getDirectConnection
        (Endpoint.getDirectConnection
          { id := some "ep1", directConnection := some { ref := 7 } }
          none true 99).1 (some false) false 100).2.1 = some { ref := 7 } :=
  getDirectConnection_idempotent
    { id := some "ep1", directConnection := some { ref := 7 } }
    { ref := 7 } rfl none (some false) true false 99 100

/-! ## LocalMedia: the shared stream cache and stop() (C6) -/

/-- A `MediaStream` object as the cache sees it: its external reference
count (`numPc`, mutated in place through shared references) and whether
`stream.stop()` has been called on it. -/
structure StreamObj where
  numPc : Int
  stopped : Bool
deriving DecidableEq

/-- The process-wide media state: a heap of stream objects addressed by
identity tags (JavaScript object references) and the global
`respoke.streams` cache of `{stream, constraints}` entries.  `C` is the
type of capture constraints. -/
structure MediaGlobal (C : Type) where
  heap : Nat → StreamObj
  streams : List (Nat × C)

/-- A `LocalMedia` instance: its requested constraints and the stream
reference (`that.stream`), `none` when idle or stopped. -/
structure LocalMediaInst (C : Type) where
  constraints : C
  stream : Option Nat
deriving DecidableEq

/-- Events fired by `LocalMedia`. -/
inductive MediaEv where
  | allow
  | stop
deriving DecidableEq

namespace LocalMedia

/-- `removeStream(theConstraints)`: find the first cache entry whose
constraints equal the given ones and splice that single entry out;
leave the cache unchanged when no entry matches. -/
def removeStream {C : Type} [DecidableEq C] :
    List (Nat × C) → C → List (Nat × C)
  | [], _ => []
  | s :: rest, tc => if s.2 = tc then rest else s :: removeStream rest tc

/-- `LocalMedia.stop`: no-op when `that.stream` is already null;
otherwise decrement the shared stream's `numPc`, and when it reaches 0
call `stream.stop()` and remove the cache entry for this instance's
constraints; always clear `that.stream` and fire a `stop` event. -/
def stop {C : Type} [DecidableEq C] (g : MediaGlobal C)
    (inst : LocalMediaInst C) :
    MediaGlobal C × LocalMediaInst C × List MediaEv :=
  match inst.stream with
  | none => (g, inst, [])
  | some sid =>
    let s1 : StreamObj := { g.heap sid with numPc := (g.heap sid).numPc - 1 }
    if s1.numPc = 0 then
      ({ heap := fun k => if k = sid then { s1 with stopped := true } else g.heap k
         streams := removeStream g.streams inst.constraints },
       { inst with stream := none }, [MediaEv.stop])
    else
      ({ heap := fun k => if k = sid then s1 else g.heap k
         streams := g.streams },
       { inst with stream := none }, [MediaEv.stop])

/-- The branch of `onReceiveUserMedia` taken when `getStream` finds no
cached stream for the constraints (the path `start()` takes on a fresh
constraint set): fire `allow`, set `that.stream`, initialize its
`numPc` to 1 and push a new `{stream, constraints}` cache entry.
`sid` is the identity tag of the stream `getUserMedia` delivered. -/
def onReceiveUserMediaNew {C : Type} (g : MediaGlobal C)
    (inst : LocalMediaInst C) (sid : Nat) :
    MediaGlobal C × LocalMediaInst C × List MediaEv :=
  ({ heap := fun k => if k = sid then { numPc := 1, stopped := false } else g.heap k
     streams := g.streams ++ [(sid, inst.constraints)] },
   { inst with stream := some sid }, [MediaEv.allow])

end LocalMedia

theorem removeStream_append_fresh {C : Type} [DecidableEq C]
    (l : List (Nat × C)) (sid : Nat) (c : C) (h : ∀ e ∈ l, e.2 ≠ c) :
    LocalMedia.removeStream (l ++ [(sid, c)]) c = l := by
  induction l with
  | nil => simp [LocalMedia.removeStream]
  | cons x xs ih =>
    have hx : x.2 ≠ c := h x (List.mem_cons_self _ _)
    simp only [List.cons_append, LocalMedia.removeStream, hx, if_false,
      List.append_eq]
    rw [ih (fun e he => h e (List.mem_cons_of_mem _ he))]

/-- Claim C6: for every `LocalMedia` instance with a live stream, `stop()`
decrements the shared cache entry's refCount; when the count reaches 0 it
stops the underlying capture and removes the cache entry; it always
clears the instance's stream reference and fires a `stop` event; `stop()`
on an already-stopped instance is a no-op; and acquiring a fresh stream
(`start()` reaching `onReceiveUserMedia` with no cached entry) followed
immediately by `stop()` leaves the global cache without an entry for that
constraint set. -/
theorem localMedia_stop_refcount {C : Type} [DecidableEq C]
    (g : MediaGlobal C) (inst : LocalMediaInst C) (sid : Nat)
    (hfresh : ∀ e ∈ g.streams, e.2 ≠ inst.constraints) :
    (inst.stream = none → LocalMedia.stop g inst = (g, inst, [])) ∧
    (∀ s, inst.stream = some s →
      ((LocalMedia.stop g inst).1.heap s).numPc = (g.heap s).numPc - 1 ∧
      ((g.heap s).numPc = 1 →
        ((LocalMedia.stop g inst).1.heap s).stopped = true ∧
        (LocalMedia.stop g inst).1.streams =
          LocalMedia.removeStream g.streams inst.constraints) ∧
      (LocalMedia.stop g inst).2.1.stream = none ∧
      (LocalMedia.stop g inst).2.2 = [MediaEv.stop]) ∧
    (inst.stream = none →
      (LocalMedia.stop (LocalMedia.onReceiveUserMediaNew g inst sid).1
          (LocalMedia.onReceiveUserMediaNew g inst sid).2.1).1.streams =
        g.streams ∧
      ∀ e ∈ (LocalMedia.stop (LocalMedia.onReceiveUserMediaNew g inst sid).1
          (LocalMedia.onReceiveUserMediaNew g inst sid).2.1).1.streams,
        e.2 ≠ inst.constraints) := by
  refine ⟨fun h => by simp [LocalMedia.stop, h], fun s hs => ?_, fun h => ?_⟩
  · by_cases hz : (g.heap s).numPc - 1 = 0
    · constructor
      · simp [LocalMedia.stop, hs, hz]
      · refine ⟨fun _ => ?_, by simp [LocalMedia.stop, hs, hz]⟩
        constructor
        · simp [LocalMedia.stop, hs, hz]
        · simp [LocalMedia.stop, hs, hz]
    · refine ⟨by simp [LocalMedia.stop, hs, hz], fun h1 => absurd ?_ hz,
        by simp [LocalMedia.stop, hs, hz]⟩
      rw [h1]
      rfl
  · have hrun : (LocalMedia.stop (LocalMedia.onReceiveUserMediaNew g inst sid).1
        (LocalMedia.onReceiveUserMediaNew g inst sid).2.1).1.streams =
        LocalMedia.removeStream (g.streams ++ [(sid, inst.constraints)])
          inst.constraints := by
      simp [LocalMedia.onReceiveUserMediaNew, LocalMedia.stop]
    rw [hrun, removeStream_append_fresh g.streams sid inst.constraints hfresh]
    exact ⟨rfl, hfresh⟩

/-- A concrete global media state and idle instance for the C6 witness. -/
def wGlobal : MediaGlobal String :=
  { heap := fun _ => { numPc := 0, stopped := false }, streams := [] }

/-- The idle instance used by the C6 witness. -/
def wInst : LocalMediaInst String := { constraints := "av", stream := none }

/-- Witness for C6: acquiring a fresh stream and stopping it right away
leaves the global cache empty. -/
theorem localMedia_stop_refcount_witness :
    (LocalMedia.stop (LocalMedia.onReceiveUserMediaNew wGlobal wInst 0).1
        (LocalMedia.onReceiveUserMediaNew wGlobal wInst 0).2.1).1.streams =
      ([] : List (Nat × String)) := by
  have h := localMedia_stop_refcount wGlobal wInst 0
    (by intro e he; simp [wGlobal] at he)
  exact (h.2.2 rfl).1

/-! ## LocalMedia: mute / unmute (C8) -/

/-- The track state of a live local stream: the `enabled` flag of each
video and each audio track. -/
structure MediaStreamModel where
  videoTracks : List Bool
  audioTracks : List Bool
deriving DecidableEq

/-- A `mute` event payload `{type, muted}`. -/
structure MuteEv where
  type : String
  muted : Bool
deriving DecidableEq

namespace LocalMedia

/-- `isVideoMuted()` on a live stream: `undefined` when the stream has no
video tracks, else whether every video track is disabled.  (On an
instance with no stream at all the source also returns `undefined`; the
mute methods below model the live-stream case the claim is scoped to.) -/
def isVideoMuted (s : MediaStreamModel) : Option Bool :=
  if s.videoTracks.length = 0 then none
  else some (s.videoTracks.all (fun t => !t))

/-- `isAudioMuted()` on a live stream. -/
def isAudioMuted (s : MediaStreamModel) : Option Bool :=
  if s.audioTracks.length = 0 then none
  else some (s.audioTracks.all (fun t => !t))

/-- `muteVideo()`: return when `isVideoMuted()` is truthy; otherwise
disable every video track and fire one `mute` event `{video, true}`. -/
def muteVideo (s : MediaStreamModel) : MediaStreamModel × List MuteEv :=
  if truthyOptBool (isVideoMuted s) then (s, [])
  else ({ s with videoTracks := s.videoTracks.map (fun _ => false) },
        [{ type := "video", muted := true }])

/-- `unmuteVideo()`: return when `isVideoMuted()` is falsy; otherwise
enable every video track and fire one `mute` event `{video, false}`. -/
def unmuteVideo (s : MediaStreamModel) : MediaStreamModel × List MuteEv :=
  if !truthyOptBool (isVideoMuted s) then (s, [])
  else ({ s with videoTracks := s.videoTracks.map (fun _ => true) },
        [{ type := "video", muted := false }])

/-- `muteAudio()`: return when `isAudioMuted()` is truthy; otherwise
disable every audio track and fire one `mute` event `{audio, true}`. -/
def muteAudio (s : MediaStreamModel) : MediaStreamModel × List MuteEv :=
  if truthyOptBool (isAudioMuted s) then (s, [])
  else ({ s with audioTracks := s.audioTracks.map (fun _ => false) },
        [{ type := "audio", muted := true }])

/-- `unmuteAudio()`: return when `isAudioMuted()` is falsy; otherwise
enable every audio track and fire one `mute` event `{audio, false}`. -/
def unmuteAudio (s : MediaStreamModel) : MediaStreamModel × List MuteEv :=
  if !truthyOptBool (isAudioMuted s) then (s, [])
  else ({ s with audioTracks := s.audioTracks.map (fun _ => true) },
        [{ type := "audio", muted := false }])

end LocalMedia

theorem all_not_map_true (l : List Bool) (h : l ≠ []) :
    ((l.map fun _ => true).all fun t => !t) = false := by
  cases l with
  | nil => exact absurd rfl h
  | cons x xs => simp

theorem all_not_map_false (l : List Bool) :
    ((l.map fun _ => false).all fun t => !t) = true := by
  induction l with
  | nil => rfl
  | cons x xs ih => simp [ih]

/-- A live stream with no video tracks (audio-only capture), refuting
claim C8 as stated. -/
def cexStream : MediaStreamModel := { videoTracks := [], audioTracks := [true] }

/-- Counterexample to claim C8 as stated: on a live audio-only stream
(zero video tracks), `muteVideo()` called twice fires a `mute` event BOTH
times (two events, not exactly one): `isVideoMuted()` returns `undefined`
for a track-less media type, which is falsy, so the already-muted guard
never stops the call. -/
theorem muteVideo_zero_tracks_cex :
    ((LocalMedia.muteVideo cexStream).2.length +
      (LocalMedia.muteVideo (LocalMedia.muteVideo cexStream).1).2.length) ≠ 1 := by
  decide

/-- Claim C8 as amended: for every live stream with at least one track of
the relevant media type — muted meaning every track of the type disabled,
unmuted meaning at least one enabled — the mute/unmute operations are
idempotent: a call in the already-requested state is a no-op firing
nothing, and otherwise the call toggles every track of the type and fires
exactly one `mute` event `{type, muted}`; in particular `muteVideo()`
called twice from an unmuted state fires exactly one event, and
`unmuteVideo()` on an already-unmuted stream fires none.  (With zero
tracks of a type, `muteVideo`/`muteAudio` instead fire an event on every
call, as the counterexample records.) -/
theorem mute_unmute_idempotent (s : MediaStreamModel)
    (hv : s.videoTracks ≠ []) (ha : s.audioTracks ≠ []) :
    (LocalMedia.isVideoMuted s = some true →
      LocalMedia.muteVideo s = (s, [])) ∧
    (LocalMedia.isVideoMuted s = some false →
      (LocalMedia.muteVideo s).2 = [{ type := "video", muted := true }] ∧
      (LocalMedia.muteVideo (LocalMedia.muteVideo s).1).2 = [] ∧
      LocalMedia.unmuteVideo s = (s, [])) ∧
    (LocalMedia.isVideoMuted s = some true →
      (LocalMedia.unmuteVideo s).2 = [{ type := "video", muted := false }] ∧
      (LocalMedia.unmuteVideo (LocalMedia.unmuteVideo s).1).2 = []) ∧
    (LocalMedia.isAudioMuted s = some true →
      LocalMedia.muteAudio s = (s, [])) ∧
    (LocalMedia.isAudioMuted s = some false →
      (LocalMedia.muteAudio s).2 = [{ type := "audio", muted := true }] ∧
      (LocalMedia.muteAudio (LocalMedia.muteAudio s).1).2 = [] ∧
      LocalMedia.unmuteAudio s = (s, [])) ∧
    (LocalMedia.isAudioMuted s = some true →
      (LocalMedia.unmuteAudio s).2 = [{ type := "audio", muted := false }] ∧
      (LocalMedia.unmuteAudio (LocalMedia.unmuteAudio s).1).2 = []) := by
  have hvlen : s.videoTracks.length ≠ 0 := by
    simpa using fun h => hv (List.length_eq_zero.mp h)
  have halen : s.audioTracks.length ≠ 0 := by
    simpa using fun h => ha (List.length_eq_zero.mp h)
  refine ⟨fun h => ?_, fun h => ?_, fun h => ?_, fun h => ?_, fun h => ?_,
    fun h => ?_⟩
  · simp [LocalMedia.muteVideo, h, truthyOptBool]
  · refine ⟨by simp [LocalMedia.muteVideo, h, truthyOptBool], ?_,
      by simp [LocalMedia.unmuteVideo, h, truthyOptBool]⟩
    have h1 : (LocalMedia.muteVideo s).1 =
        { s with videoTracks := s.videoTracks.map (fun _ => false) } := by
      simp [LocalMedia.muteVideo, h, truthyOptBool]
    rw [h1]
    simp [LocalMedia.muteVideo, LocalMedia.isVideoMuted, truthyOptBool, hvlen,
      List.all_eq_true]
  · refine ⟨by simp [LocalMedia.unmuteVideo, h, truthyOptBool], ?_⟩
    have h1 : (LocalMedia.unmuteVideo s).1 =
        { s with videoTracks := s.videoTracks.map (fun _ => true) } := by
      simp [LocalMedia.unmuteVideo, h, truthyOptBool]
    rw [h1]
    have h2 : truthyOptBool (LocalMedia.isVideoMuted
        { s with videoTracks := s.videoTracks.map (fun _ => true) }) = false := by
      unfold LocalMedia.isVideoMuted
      simp only [List.length_map]
      rw [if_neg hvlen, all_not_map_true s.videoTracks hv]
      rfl
    unfold LocalMedia.unmuteVideo
    rw [h2]
    rfl
  · simp [LocalMedia.muteAudio, h, truthyOptBool]
  · refine ⟨by simp [LocalMedia.muteAudio, h, truthyOptBool], ?_,
      by simp [LocalMedia.unmuteAudio, h, truthyOptBool]⟩
    have h1 : (LocalMedia.muteAudio s).1 =
        { s with audioTracks := s.audioTracks.map (fun _ => false) } := by
      simp [LocalMedia.muteAudio, h, truthyOptBool]
    rw [h1]
    simp [LocalMedia.muteAudio, LocalMedia.isAudioMuted, truthyOptBool, halen,
      List.all_eq_true]
  · refine ⟨by simp [LocalMedia.unmuteAudio, h, truthyOptBool], ?_⟩
    have h1 : (LocalMedia.unmuteAudio s).1 =
        { s with audioTracks := s.audioTracks.map (fun _ => true) } := by
      simp [LocalMedia.unmuteAudio, h, truthyOptBool]
    rw [h1]
    have h2 : truthyOptBool (LocalMedia.isAudioMuted
        { s with audioTracks := s.audioTracks.map (fun _ => true) }) = false := by
      unfold LocalMedia.isAudioMuted
      simp only [List.length_map]
      rw [if_neg halen, all_not_map_true s.audioTracks ha]
      rfl
    unfold LocalMedia.unmuteAudio
    rw [h2]
    rfl

/-- Witness for the amended C8: on a live stream with one enabled video
track and one enabled audio track, `muteVideo()` twice fires exactly one
event, and `unmuteVideo()` on the already-unmuted stream fires none. -/
theorem mute_unmute_idempotent_witness :
    (LocalMedia.muteVideo { videoTracks := [true], audioTracks := [true] }).2 =
      [{ type := "video", muted := true }] ∧
    (LocalMedia.muteVideo
      (LocalMedia.muteVideo
        { videoTracks := [true], audioTracks := [true] }).1).2 = [] ∧
    LocalMedia.unmuteVideo { videoTracks := [true], audioTracks := [true] } =
      ({ videoTracks := [true], audioTracks := [true] }, []) := by
  have h := mute_unmute_idempotent
    { videoTracks := [true], audioTracks := [true] } (by decide) (by decide)
  exact h.2.1 (by decide)

end Respoke
